import Mathlib

/-!
Shallow embedding of the Hyperliquid wallet-tracker bot's activity
monitoring core (`bot.js`), its deduplication store (`database.js`), and
the market-listing diff detector / address validator of the HyperliquidAPI
class.  Pure data transformations are translated as Lean functions; the
mutable maps (`lastCheckTimes`, `activeTwapOrders`, the SQLite
`processed_orders` table, the `_cachedMarkets` snapshot) become explicit
state values threaded through the functions; JavaScript exceptions become
`Except` values; `Math.random()` becomes an explicit string parameter
standing for the stringified random draw.
-/

/-- One raw activity as built by `getRecentActivity`: fills, order-history
entries and staking-history entries (non-TWAP; TWAP slice fills are modelled
separately as `TwapFill`).  `oid`/`tid` are the exchange order / trade ids
(numbers in JS, absent on some variants), `hash` the transaction hash of a
staking event, `amount` the numeric value `parseFloat` extracts from the
activity's `amount` field (none when the field is absent or unparsable),
`type` the tag attached by `getRecentActivity` ("fill", "order",
"staking_activity"). -/
structure Activity where
  time : Int
  oid : Option Int
  tid : Option Int
  hash : Option String
  type : String
  amount : Option ℚ
deriving Repr, DecidableEq

/-- JS falsiness of the number field `activity.oid` / `activity.tid` inside
`activity.oid || activity.tid || ...`: `undefined` and `0` are falsy. -/
def intFieldTruthy : Option Int → Bool
  | none => false
  | some n => n != 0

/-- JS falsiness of the string field `activity.hash`: `undefined` and the
empty string are falsy. -/
def strFieldTruthy : Option String → Bool
  | none => false
  | some h => h != ""

/-- Third link of the `||` chain in `bot.js` line 866: the transaction hash,
falling back to the stringified `Math.random()` draw `rand`. -/
def eventIdFromHash (a : Activity) (rand : String) : String :=
  match a.hash with
  | some h => if h != "" then h else rand
  | none => rand

/-- Second link of the `||` chain in `bot.js` line 866: the trade id,
falling back to the hash and then to the random draw. -/
def eventIdFromTid (a : Activity) (rand : String) : String :=
  match a.tid with
  | some n => if n != 0 then toString n else eventIdFromHash a rand
  | none => eventIdFromHash a rand

/-- `bot.js` line 866:
`const activityId = ` the template string of `activity.time`, `_`, and
`activity.oid || activity.tid || activity.hash || Math.random()`.
`rand` stands for the stringified value of the `Math.random()` draw of this
particular run. -/
def activityEventId (a : Activity) (rand : String) : String :=
  toString a.time ++ "_" ++
    (match a.oid with
     | some n => if n != 0 then toString n else eventIdFromTid a rand
     | none => eventIdFromTid a rand)

/-- The activity carries at least one truthy exchange-assigned identifier
(order id, trade id or transaction hash) under JS falsiness. -/
def hasExchangeId (a : Activity) : Bool :=
  intFieldTruthy a.oid || intFieldTruthy a.tid || strFieldTruthy a.hash

/-! ## Deduplication store (`database.js` lines 205-229)

The SQLite table `processed_orders` has columns `wallet_address`,
`order_id`, `order_hash` and constraint `UNIQUE(wallet_address, order_id)`;
it is modelled as a list of rows.  `markOrderProcessed` runs
`INSERT OR IGNORE`, so a conflicting insert is skipped without error; the
returned `Bool` is `true` exactly when the promise resolves (which it does
in both the inserted and the ignored case — rejection happens only on a
database-level failure, which is outside the model). -/

/-- One row of the `processed_orders` table. -/
structure ProcessedOrderRow where
  wallet_address : String
  order_id : String
  order_hash : Option String
deriving Repr, DecidableEq

/-- `database.js` `isOrderProcessed`: membership test by
`(wallet_address, order_id)`. -/
def isOrderProcessed (store : List ProcessedOrderRow) (w oid : String) : Bool :=
  store.any (fun r => r.wallet_address == w && r.order_id == oid)

/-- `database.js` `markOrderProcessed`: `INSERT OR IGNORE` against the
`UNIQUE(wallet_address, order_id)` constraint.  Returns the new store and
whether the promise resolved. -/
def markOrderProcessed (store : List ProcessedOrderRow) (w oid : String)
    (ohash : Option String) : List ProcessedOrderRow × Bool :=
  if store.any (fun r => r.wallet_address == w && r.order_id == oid) then
    (store, true)
  else
    (store ++ [⟨w, oid, ohash⟩], true)

/-! ## Non-TWAP activity processing (`bot.js` lines 865-893)

For an activity that the dedup store has not seen, the loop body performs,
in source order: `markOrderProcessed`, then (for a staking activity whose
parsed amount exceeds 10000) the global `sendLargeStakingNotificationToAll`
broadcast, then one `bot.sendMessage` per user tracking the wallet.  The
side effects are modelled as an ordered list of abstract actions. -/

/-- One user tracking a wallet, as returned by `getUsersTrackingWallet`. -/
structure TrackingUser where
  telegram_id : Int
  nickname : Option String
deriving Repr, DecidableEq

/-- The observable side effects of the non-TWAP branch of
`checkForNewOrders`, in program order. -/
inductive BotAction where
  | markProcessed (wallet : String) (eventId : String)
  | broadcast (wallet : String) (time : Int)
  | send (telegramId : Int) (wallet : String) (time : Int)
deriving Repr, DecidableEq

/-- An action that sends a message to a Telegram user (either the global
broadcast or a per-subscriber notification). -/
def isNotification : BotAction → Bool
  | .markProcessed _ _ => false
  | .broadcast _ _ => true
  | .send _ _ _ => true

/-- `bot.js` line 874: `parseFloat(activity.amount || 0)`. -/
def parsedAmount (a : Activity) : ℚ :=
  a.amount.getD 0

/-- `bot.js` lines 865-893, body of the loop over `nonTwapActivities` for a
single activity: dedup check (its database answer is the input
`alreadyProcessed`), mark, large-staking broadcast, per-subscriber sends.
Returns the ordered action list; an already-processed activity produces no
actions. -/
def processNonTwapActivity (alreadyProcessed : Bool) (wallet : String)
    (a : Activity) (rand : String) (usersTracking : List TrackingUser) :
    List BotAction :=
  if alreadyProcessed then []
  else
    [BotAction.markProcessed wallet (activityEventId a rand)]
      ++ (if a.type == "staking_activity" && decide (parsedAmount a > 10000) then
            [BotAction.broadcast wallet a.time]
          else [])
      ++ usersTracking.map (fun u => BotAction.send u.telegram_id wallet a.time)

/-! ## Per-wallet checkpoint bookkeeping (`bot.js` lines 837-959)

`lastCheckTimes` is a JS `Map` from wallet address to timestamp, modelled
as an association list.  Inside the per-wallet `try` block the loop reads
`lastCheckTimes.get(walletAddress) || (Date.now() - 60 * 1000)`, does the
fetch and processing, and only then — still inside the `try` — executes
`lastCheckTimes.set(walletAddress, Date.now())` (line 950).  The `catch`
at line 952 logs and moves on, so a throw anywhere in the body skips the
`set`.  The body's outcome is modelled as an `Except`: `.ok acts` when it
ran to completion producing the action list `acts`, `.error ()` when some
await in it rejected. -/

/-- `Map.get` on the checkpoint map: the value of the first (and, keys
being unique, only) entry for the wallet. -/
def lookupCheckpoint (m : List (String × Int)) (w : String) : Option Int :=
  match m with
  | [] => none
  | p :: ps => if p.1 == w then some p.2 else lookupCheckpoint ps w

/-- `Map.set` on the checkpoint map: overwrite the existing entry in place
or append a new one, preserving JS `Map` insertion order. -/
def setCheckpoint (m : List (String × Int)) (w : String) (t : Int) :
    List (String × Int) :=
  match m with
  | [] => [(w, t)]
  | p :: ps => if p.1 == w then (w, t) :: ps else p :: setCheckpoint ps w t

/-- `bot.js` line 843: the `since` bound of the fetch window,
`lastCheckTimes.get(walletAddress) || (Date.now() - 60 * 1000)`. -/
def sweepSince (m : List (String × Int)) (w : String) (now : Int) : Int :=
  (lookupCheckpoint m w).getD (now - 60 * 1000)

/-- One iteration of the per-wallet loop of `checkForNewOrders`, restricted
to its effect on the checkpoint map: on a completed body the checkpoint is
set to `now` (line 950); on a thrown body the `catch` (line 952) is taken
and the map is left untouched. -/
def walletSweepCheckpoint (m : List (String × Int)) (w : String) (now : Int)
    (attempt : Except Unit (List BotAction)) :
    List (String × Int) × List BotAction :=
  match attempt with
  | .ok acts => (setCheckpoint m w now, acts)
  | .error _ => (m, [])

/-! ## Sliced-order (TWAP) aggregator (`bot.js` lines 849-862 and 897-947)

`checkForNewOrders` groups the tick's `twap_fill` activities by `twapId`
and then, per id, sorts the group ascending by `time` (JS `Array.sort` is
stable), creates an `activeTwapOrders` entry and emits a start notification
when the key `` `${walletAddress}_${twapId}` `` is not yet tracked, adds the
batch length to `totalFills`, and — exactly when the last element of the
sorted batch carries `isTwapDone` or `isTwapCancelled` — emits one terminal
notification (cancellation taking precedence via the ternary at line 935)
and deletes the entry. -/

/-- One TWAP slice fill as classified by `getRecentActivity`
(`type: 'twap_fill'`). -/
structure TwapFill where
  time : Int
  sz : String
  coin : String
  side : String
  isTwapDone : Bool
  isTwapCancelled : Bool
  filledSz : Option String
  closedPnl : Option String
deriving Repr, DecidableEq

/-- One value of the `activeTwapOrders` map (`bot.js` lines 906-912). -/
structure TwapStatus where
  startTime : Int
  totalFills : Nat
  coin : String
  side : String
  initialSize : String
deriving Repr, DecidableEq

/-- The lifecycle notifications the TWAP branch can emit; terminal events
carry the status whose `totalFills` the message reports. -/
inductive TwapEvent where
  | started (f : TwapFill)
  | completed (f : TwapFill) (s : TwapStatus)
  | cancelled (f : TwapFill) (s : TwapStatus)
deriving Repr, DecidableEq

/-- The event is the start notification. -/
def isStartedEvent : TwapEvent → Bool
  | .started _ => true
  | _ => false

/-- The event is a terminal (completion or cancellation) notification. -/
def isTerminalEvent : TwapEvent → Bool
  | .started _ => false
  | .completed _ _ => true
  | .cancelled _ _ => true

/-- The event is the completion notification. -/
def isCompletedEvent : TwapEvent → Bool
  | .completed _ _ => true
  | _ => false

/-- The event is the cancellation notification. -/
def isCancelledEvent : TwapEvent → Bool
  | .cancelled _ _ => true
  | _ => false

/-- `fills.sort((a, b) => a.time - b.time)` — ascending stable sort by
time; insertion sort with a non-strict comparison is stable, matching the
ES2019 stable-sort guarantee. -/
def sortFillsByTime (fills : List TwapFill) : List TwapFill :=
  fills.insertionSort (fun a b => a.time ≤ b.time)

/-- The chronologically-last member of the sorted batch
(`fills[fills.length - 1]` after the in-place sort), `none` on an empty
batch (which the grouping loop never produces). -/
def batchLastFill (fills : List TwapFill) : Option TwapFill :=
  match sortFillsByTime fills with
  | [] => none
  | f :: rest => some ((f :: rest).getLastD f)

/-- The sorted batch's last member carries a terminal flag —
`lastFill.isTwapDone || lastFill.isTwapCancelled` (line 931). -/
def batchIsTerminal (fills : List TwapFill) : Bool :=
  match batchLastFill fills with
  | none => false
  | some lf => lf.isTwapDone || lf.isTwapCancelled

/-- `bot.js` lines 897-947, body of the loop over `twapFills` for one
`twapId`: the tracked state for the `(wallet, twapId)` key before the batch
is `st` (`none` when the key is not in `activeTwapOrders`), the batch is
`fills`; returns the emitted lifecycle events in order and the state after
the batch (`none` after the `delete`). -/
def processTwapBatch (st : Option TwapStatus) (fills : List TwapFill) :
    List TwapEvent × Option TwapStatus :=
  match sortFillsByTime fills with
  | [] => ([], st)
  | firstFill :: rest =>
    let startEvs := if st.isNone then [TwapEvent.started firstFill] else []
    let s0 := st.getD
      ⟨firstFill.time, 0, firstFill.coin, firstFill.side, firstFill.sz⟩
    let s1 := { s0 with totalFills := s0.totalFills + fills.length }
    let lastFill := (firstFill :: rest).getLastD firstFill
    if lastFill.isTwapDone || lastFill.isTwapCancelled then
      (startEvs ++
        [if lastFill.isTwapCancelled then TwapEvent.cancelled lastFill s1
         else TwapEvent.completed lastFill s1], none)
    else
      (startEvs, some s1)

/-- Successive polling batches for one `(wallet, twapId)` key, folded
through `processTwapBatch`; returns all emitted events in order and the
final tracked state. -/
def runTwap (st : Option TwapStatus) (batches : List (List TwapFill)) :
    List TwapEvent × Option TwapStatus :=
  match batches with
  | [] => ([], st)
  | b :: bs =>
    let step := processTwapBatch st b
    let recur := runTwap step.2 bs
    (step.1 ++ recur.1, recur.2)

/-! ## Market-listing diff detector (`getNewMarkets`, HyperliquidAPI)

`getNewMarkets` keeps `_cachedMarkets` (the previous perp/spot universes,
`null` at construction) and `_lastMarketUpdate` (initialised to `0`).  It
first short-circuits to empty results when `_lastMarketUpdate` is truthy
and less than 300000 ms old; otherwise it fetches both universes (a failed
fetch yields `null`, whose `.universe` access throws into the `catch`,
returning empty results with the state untouched), diffs by `name` against
the cached snapshot when one exists, and replaces the snapshot and the
update time.  Universe entries are diffed only by their `name` field, so
the model keeps just that field. -/

/-- One tradable-instrument entry of a `universe` array; only `name` is
consulted by the diff. -/
structure MarketAsset where
  name : String
deriving Repr, DecidableEq

/-- The `_cachedMarkets` snapshot: `{ perps, spots }`. -/
structure MarketsCache where
  perps : List MarketAsset
  spots : List MarketAsset
deriving Repr, DecidableEq

/-- The instance state `getNewMarkets` reads and writes. -/
structure HLMarketState where
  cachedMarkets : Option MarketsCache
  lastMarketUpdate : Int
deriving Repr, DecidableEq

/-- Constructor state: `_cachedMarkets = null`, `_lastMarketUpdate = 0`. -/
def initialMarketState : HLMarketState := ⟨none, 0⟩

/-- The by-name set-difference: current assets whose name is absent from
the old snapshot (`filter (asset => !oldAssets.has(asset.name))`). -/
def newByName (current old : List MarketAsset) : List MarketAsset :=
  current.filter (fun a => !(old.map MarketAsset.name).contains a.name)

/-- `getNewMarkets`: `now` is `Date.now()`, `fetched` the pair of perp/spot
universes (`none` when either fetch failed, sending control to the
`catch`).  Returns `{ newPerps, newSpots }` and the instance state after
the call. -/
def getNewMarkets (st : HLMarketState) (now : Int)
    (fetched : Option (List MarketAsset × List MarketAsset)) :
    (List MarketAsset × List MarketAsset) × HLMarketState :=
  if st.lastMarketUpdate != 0 && decide (now - st.lastMarketUpdate < 300000) then
    (([], []), st)
  else
    match fetched with
    | none => (([], []), st)
    | some (meta, spotMeta) =>
      let newPerps := match st.cachedMarkets with
        | some c => newByName meta c.perps
        | none => []
      let newSpots := match st.cachedMarkets with
        | some c => newByName spotMeta c.spots
        | none => []
      ((newPerps, newSpots), ⟨some ⟨meta, spotMeta⟩, now⟩)

/-! ## Address validation (`isValidAddress`)

Both HyperliquidAPI variants implement it as
`/^0x[a-fA-F0-9]{40}$/.test(address)`: the whole string must be `0x`
followed by exactly forty hexadecimal characters. -/

/-- One character of the class `[a-fA-F0-9]`. -/
def isHexChar (c : Char) : Bool :=
  (decide ('0' ≤ c) && decide (c ≤ '9')) ||
  (decide ('a' ≤ c) && decide (c ≤ 'f')) ||
  (decide ('A' ≤ c) && decide (c ≤ 'F'))

/-- `isValidAddress`: the anchored regex `^0x[a-fA-F0-9]{40}$` compiled to
a character-level test on the string's character list. -/
def isValidAddress (s : String) : Bool :=
  match s.data with
  | '0' :: 'x' :: rest => rest.length == 40 && rest.all isHexChar
  | _ => false

/-! ## Shared helper lemmas -/

theorem lookupCheckpoint_setCheckpoint (m : List (String × Int)) (w : String)
    (t : Int) : lookupCheckpoint (setCheckpoint m w t) w = some t := by
  induction m with
  | nil => simp [lookupCheckpoint, setCheckpoint]
  | cons p ps ih =>
    by_cases hp : (p.1 == w) = true
    · simp [lookupCheckpoint, setCheckpoint, hp]
    · simp [lookupCheckpoint, setCheckpoint, hp, ih]

theorem eventIdFromHash_det (a : Activity) (r₁ r₂ : String)
    (h : strFieldTruthy a.hash = true) :
    eventIdFromHash a r₁ = eventIdFromHash a r₂ := by
  unfold strFieldTruthy at h
  unfold eventIdFromHash
  rcases hh : a.hash with _ | s
  · rw [hh] at h; simp at h
  · rw [hh] at h; simp only [bne_iff_ne, ne_eq] at h
    simp [h]

theorem eventIdFromTid_det (a : Activity) (r₁ r₂ : String)
    (h : (intFieldTruthy a.tid || strFieldTruthy a.hash) = true) :
    eventIdFromTid a r₁ = eventIdFromTid a r₂ := by
  unfold eventIdFromTid
  rcases ht : a.tid with _ | n
  · rw [ht] at h; simp only [intFieldTruthy, Bool.false_or] at h
    exact eventIdFromHash_det a r₁ r₂ h
  · rw [ht] at h; simp only [intFieldTruthy, Bool.or_eq_true, bne_iff_ne, ne_eq] at h
    by_cases hn : n = 0
    · simp only [hn, bne_self_eq_false, if_false]
      rcases h with h | h
      · exact absurd hn h
      · exact eventIdFromHash_det a r₁ r₂ h
    · simp [hn]

/-! ## C1 — event-id determinism -/

/-- C1 counterexample: an activity carrying no exchange order id, no trade
id and no hash reaches the `Math.random()` fallback of `bot.js` line 866,
so two runs of the pipeline over the same activity (drawing "0.123" and
"0.456") compute different `eventId`s — the claim as stated is false. -/
theorem activityEventId_nondeterministic_cex :
    activityEventId ⟨1000, none, none, none, "fill", none⟩ "0.123" ≠
    activityEventId ⟨1000, none, none, none, "fill", none⟩ "0.456" := by
  decide

/-- C1 (amended): for every non-sliced activity that carries at least one
truthy exchange-assigned identifier (order id, trade id or transaction
hash), the deduplication event id of `bot.js` line 866 is deterministic:
two runs over the same activity compute the same `eventId` whatever their
`Math.random()` draws; only an activity lacking all three identifiers falls
back to the non-deterministic random value. -/
theorem activityEventId_deterministic (a : Activity) (r₁ r₂ : String)
    (h : hasExchangeId a = true) :
    activityEventId a r₁ = activityEventId a r₂ := by
  unfold hasExchangeId at h
  unfold activityEventId
  rcases ho : a.oid with _ | n
  · rw [ho] at h
    simp only [intFieldTruthy, Bool.false_or] at h
    simp only [ho]
    rw [eventIdFromTid_det a r₁ r₂ h]
  · rw [ho] at h
    by_cases hn : n = 0
    · simp only [hn, intFieldTruthy, bne_self_eq_false, Bool.false_or] at h
      simp only [ho, hn, bne_self_eq_false, if_false]
      rw [eventIdFromTid_det a r₁ r₂ h]
    · simp [ho, hn]

/-- C1 witness: a concrete activity with exchange order id 77 gets the same
event id under two different random draws. -/
theorem activityEventId_deterministic_witness :
    hasExchangeId ⟨1000, some 77, none, none, "fill", none⟩ = true ∧
    activityEventId ⟨1000, some 77, none, none, "fill", none⟩ "0.123" =
      activityEventId ⟨1000, some 77, none, none, "fill", none⟩ "0.456" :=
  ⟨by decide,
   activityEventId_deterministic ⟨1000, some 77, none, none, "fill", none⟩
     "0.123" "0.456" (by decide)⟩

/-! ## C3 — checkpoint advance on the error path -/

/-- C3 counterexample: the `lastCheckTimes.set` of `bot.js` line 950 sits
inside the per-wallet `try`, so when the wallet's processing throws (the
`catch` at line 952), the checkpoint is left at its old value instead of
being set to the current time — at the concrete input below the entry for
the wallet stays `5` rather than becoming the sweep time `100`, refuting
the claim's "equally when the per-wallet processing throws an error". -/
theorem walletSweepCheckpoint_error_cex :
    (walletSweepCheckpoint [("0xwallet", 5)] "0xwallet" 100
        (Except.error ())).1 = [("0xwallet", 5)] ∧
    lookupCheckpoint
        (walletSweepCheckpoint [("0xwallet", 5)] "0xwallet" 100
          (Except.error ())).1 "0xwallet" ≠ some 100 := by
  decide

/-- C3 (amended): the wallet's `LastCheckpoint` entry is set to the current
time only when the per-wallet attempt completes without throwing; when the
per-wallet processing throws, the `catch` is taken before the
`lastCheckTimes.set` of line 950 runs and the checkpoint map is left
entirely unchanged (so a failing wallet re-fetches the same window on the
next sweep). -/
theorem walletSweepCheckpoint_amended (m : List (String × Int)) (w : String)
    (now : Int) (acts : List BotAction) :
    lookupCheckpoint (walletSweepCheckpoint m w now (Except.ok acts)).1 w =
        some now ∧
    ∀ e : Unit, (walletSweepCheckpoint m w now (Except.error e)).1 = m := by
  constructor
  · show lookupCheckpoint (setCheckpoint m w now) w = some now
    exact lookupCheckpoint_setCheckpoint m w now
  · intro e
    rfl

/-! ## C8 — idempotence of `markOrderProcessed` -/

/-- C8: `markOrderProcessed` is idempotent — when the
`(wallet_address, order_id)` key is already present in `processed_orders`,
the `INSERT OR IGNORE` is a no-op that still resolves successfully, and the
store's contents are unchanged. -/
theorem markOrderProcessed_idempotent (store : List ProcessedOrderRow)
    (w oid : String) (ohash : Option String)
    (h : isOrderProcessed store w oid = true) :
    markOrderProcessed store w oid ohash = (store, true) := by
  unfold isOrderProcessed at h
  unfold markOrderProcessed
  rw [if_pos h]

/-- C8 witness: inserting the already-present key `("0xw", "42_7")` into a
concrete one-row store returns the store unchanged with a resolved
promise. -/
theorem markOrderProcessed_idempotent_witness :
    isOrderProcessed [⟨"0xw", "42_7", none⟩] "0xw" "42_7" = true ∧
    markOrderProcessed [⟨"0xw", "42_7", none⟩] "0xw" "42_7" (some "h") =
      ([⟨"0xw", "42_7", none⟩], true) :=
  ⟨by decide,
   markOrderProcessed_idempotent [⟨"0xw", "42_7", none⟩] "0xw" "42_7"
     (some "h") (by decide)⟩

/-! ## C4 — dedup record inserted before any notification -/

/-- C4: for a not-yet-seen non-TWAP activity, `checkForNewOrders` performs
`markOrderProcessed` (the `ProcessedEventRecord` insert, `bot.js` line 870)
strictly before every notification referencing the activity — both the
global large-staking broadcast and each per-subscriber send — so an
interruption between insert and send can lose a notification but never
duplicate one. -/
theorem markProcessed_before_notification (w : String) (a : Activity)
    (rand : String) (us : List TrackingUser) (i : Nat)
    (hi : i < (processNonTwapActivity false w a rand us).length)
    (hn : isNotification ((processNonTwapActivity false w a rand us).get
        ⟨i, hi⟩) = true) :
    ∃ j, ∃ hj : j < (processNonTwapActivity false w a rand us).length,
      j < i ∧ (processNonTwapActivity false w a rand us).get ⟨j, hj⟩ =
        BotAction.markProcessed w (activityEventId a rand) := by
  match i with
  | 0 =>
    exfalso
    have : (processNonTwapActivity false w a rand us).get ⟨0, hi⟩ =
        BotAction.markProcessed w (activityEventId a rand) := by
      simp [processNonTwapActivity]
    rw [this] at hn
    simp [isNotification] at hn
  | k + 1 =>
    refine ⟨0, ?_, Nat.succ_pos k, ?_⟩
    · exact Nat.lt_of_lt_of_le (Nat.succ_pos k) (Nat.le_of_lt hi)
    · simp [processNonTwapActivity]

/-- C4 witness: with one subscriber, the action at index 1 is that
subscriber's notification and the insert at index 0 precedes it. -/
theorem markProcessed_before_notification_witness :
    ∃ j, ∃ hj : j < (processNonTwapActivity false "0xw"
        ⟨1000, some 77, none, none, "fill", none⟩ "0.5" [⟨9, none⟩]).length,
      j < 1 ∧ (processNonTwapActivity false "0xw"
        ⟨1000, some 77, none, none, "fill", none⟩ "0.5" [⟨9, none⟩]).get
          ⟨j, hj⟩ =
        BotAction.markProcessed "0xw"
          (activityEventId ⟨1000, some 77, none, none, "fill", none⟩ "0.5") :=
  markProcessed_before_notification "0xw"
    ⟨1000, some 77, none, none, "fill", none⟩ "0.5" [⟨9, none⟩] 1
    (by decide) (by decide)

/-! ## C5 — large-staking broadcast iff amount exceeds threshold -/

/-- C5: for every staking activity the monitor processes (dedup check
answered "not seen"), the global `sendLargeStakingNotificationToAll`
broadcast fires exactly when the parsed amount strictly exceeds the 10000
threshold of `bot.js` line 875, and whether it fires is independent of the
wallet's direct subscriber list (zero, one or many subscribers). -/
theorem largeStakingBroadcast_iff (w : String) (a : Activity) (rand : String)
    (us us' : List TrackingUser) (hty : a.type = "staking_activity") :
    ((BotAction.broadcast w a.time ∈
        processNonTwapActivity false w a rand us) ↔ parsedAmount a > 10000) ∧
    ((BotAction.broadcast w a.time ∈
        processNonTwapActivity false w a rand us) ↔
      (BotAction.broadcast w a.time ∈
        processNonTwapActivity false w a rand us')) := by
  have key : ∀ vs : List TrackingUser,
      (BotAction.broadcast w a.time ∈
        processNonTwapActivity false w a rand vs) ↔ parsedAmount a > 10000 := by
    intro vs
    constructor
    · intro hmem
      by_cases hamt : parsedAmount a > 10000
      · exact hamt
      · exfalso
        simp [processNonTwapActivity, hty, hamt, List.mem_map] at hmem
    · intro hamt
      simp [processNonTwapActivity, hty, hamt]
  exact ⟨key us, (key us).trans (key us').symm⟩

/-- C5 witness: a staking activity of amount 20000 with zero direct
subscribers broadcasts, and its broadcasting is equivalent to the same
activity's broadcasting with one subscriber. -/
theorem largeStakingBroadcast_iff_witness :
    ((BotAction.broadcast "0xw" 1000 ∈
        processNonTwapActivity false "0xw"
          ⟨1000, none, none, some "0xh", "staking_activity", some 20000⟩
          "0.5" []) ↔
      parsedAmount
        ⟨1000, none, none, some "0xh", "staking_activity", some 20000⟩ >
          10000) ∧
    ((BotAction.broadcast "0xw" 1000 ∈
        processNonTwapActivity false "0xw"
          ⟨1000, none, none, some "0xh", "staking_activity", some 20000⟩
          "0.5" []) ↔
      (BotAction.broadcast "0xw" 1000 ∈
        processNonTwapActivity false "0xw"
          ⟨1000, none, none, some "0xh", "staking_activity", some 20000⟩
          "0.5" [⟨9, none⟩])) :=
  largeStakingBroadcast_iff "0xw"
    ⟨1000, none, none, some "0xh", "staking_activity", some 20000⟩ "0.5"
    [] [⟨9, none⟩] (by decide)

/-! ## C9 — market-listing diff detector -/

/-- C9 counterexample: a second invocation of `getNewMarkets` made 1000 ms
after the baseline-establishing first call hits the five-minute cache
short-circuit and returns empty sets even though a new perp asset "BBB"
has appeared — the by-name set-difference against the previous snapshot is
`[BBB]`, not empty, so "every subsequent invocation returns exactly the
set-difference" is false as stated. -/
theorem getNewMarkets_cacheWindow_cex :
    (getNewMarkets
        (getNewMarkets initialMarketState 1000 (some ([⟨"AAA"⟩], []))).2
        2000 (some ([⟨"AAA"⟩, ⟨"BBB"⟩], []))).1 = ([], []) ∧
    newByName [⟨"AAA"⟩, ⟨"BBB"⟩] [⟨"AAA"⟩] = [⟨"BBB"⟩] ∧
    (([], []) : List MarketAsset × List MarketAsset) ≠ ([⟨"BBB"⟩], []) := by
  decide

/-- C9 (amended): `getNewMarkets` returns empty new-perp and new-spot sets
on its first invocation after a cold start, whatever the fetch returns
(establishing the baseline snapshot when the fetch succeeds); and on every
subsequent invocation that falls outside the five-minute cache window
(`_lastMarketUpdate` zero or at least 300000 ms old) and whose metadata
fetches succeed, it returns exactly the by-name set-difference between the
currently fetched instrument sets and the previous snapshot.  Invocations
inside the cache window, or whose fetch fails, return empty sets without
diffing and leave the snapshot unchanged. -/
theorem getNewMarkets_amended (now : Int)
    (fetched : Option (List MarketAsset × List MarketAsset))
    (st : HLMarketState) (c : MarketsCache) (meta spotMeta : List MarketAsset)
    (hc : st.cachedMarkets = some c)
    (hstale : st.lastMarketUpdate = 0 ∨ now - st.lastMarketUpdate ≥ 300000) :
    (getNewMarkets initialMarketState now fetched).1 = ([], []) ∧
    (getNewMarkets st now (some (meta, spotMeta))).1 =
      (newByName meta c.perps, newByName spotMeta c.spots) := by
  constructor
  · rcases fetched with _ | ⟨m, s⟩
    · rfl
    · simp [getNewMarkets, initialMarketState]
  · have hguard : (st.lastMarketUpdate != 0 &&
        decide (now - st.lastMarketUpdate < 300000)) = false := by
      rcases hstale with h0 | hfar
      · simp [h0]
      · simp only [Bool.and_eq_false_iff]
        right
        simpa using not_lt.mpr hfar
    simp [getNewMarkets, hguard, hc]

/-- C9 witness: concrete two-call run — the cold-start call at time 1000
returns nothing and snapshots `[AAA]`; a call at time 400000 (outside the
cache window) with universes `[AAA, BBB]` returns exactly `[BBB]`. -/
theorem getNewMarkets_amended_witness :
    (⟨some ⟨[⟨"AAA"⟩], []⟩, 1000⟩ : HLMarketState).cachedMarkets =
        some ⟨[⟨"AAA"⟩], []⟩ ∧
    ((getNewMarkets initialMarketState 1000 (some ([⟨"AAA"⟩], []))).1 =
        ([], []) ∧
      (getNewMarkets ⟨some ⟨[⟨"AAA"⟩], []⟩, 1000⟩ 400000
          (some ([⟨"AAA"⟩, ⟨"BBB"⟩], []))).1 =
        (newByName [⟨"AAA"⟩, ⟨"BBB"⟩] [⟨"AAA"⟩], newByName [] [])) :=
  ⟨by decide,
   getNewMarkets_amended 400000 (some ([⟨"AAA"⟩], []))
     ⟨some ⟨[⟨"AAA"⟩], []⟩, 1000⟩ ⟨[⟨"AAA"⟩], []⟩ [⟨"AAA"⟩, ⟨"BBB"⟩] []
     (by decide) (by decide)⟩

/-! ## C10 — address validation -/

/-- C10: `isValidAddress` accepts exactly the strings consisting of the
prefix `0x` followed by exactly forty hexadecimal characters (digits or
letters `a`-`f` in either case); every other string — longer, shorter, or
containing a non-hex character — yields `false`. -/
theorem isValidAddress_iff (s : String) :
    isValidAddress s = true ↔
      ∃ t : List Char, s.data = '0' :: 'x' :: t ∧ t.length = 40 ∧
        ∀ c ∈ t, isHexChar c = true := by
  cases s with
  | mk l =>
    show (match l with
      | '0' :: 'x' :: rest => rest.length == 40 && rest.all isHexChar
      | _ => false) = true ↔ _
    constructor
    · intro h
      split at h
      · rename_i rest
        refine ⟨rest, rfl, ?_, ?_⟩
        · have := (Bool.and_eq_true _ _).mp h
          simpa using this.1
        · have := (Bool.and_eq_true _ _).mp h
          simpa [List.all_eq_true] using this.2
      · simp at h
    · rintro ⟨t, hdata, hlen, hhex⟩
      have : l = '0' :: 'x' :: t := hdata
      subst this
      simp only [List.all_eq_true, hlen, beq_self_eq_true, Bool.true_and]
      exact hhex

/-! ## TWAP aggregator lemmas -/

instance : IsTotal TwapFill (fun a b => a.time ≤ b.time) :=
  ⟨fun a b => Int.le_total a.time b.time⟩

instance : IsTrans TwapFill (fun a b => a.time ≤ b.time) :=
  ⟨fun _ _ _ hab hbc => Int.le_trans hab hbc⟩

theorem sortFillsByTime_length (b : List TwapFill) :
    (sortFillsByTime b).length = b.length :=
  (List.perm_insertionSort _ b).length_eq

theorem sortFillsByTime_ne_nil (b : List TwapFill) (hne : b ≠ []) :
    sortFillsByTime b ≠ [] := by
  intro hcontra
  apply hne
  have := sortFillsByTime_length b
  rw [hcontra] at this
  exact List.length_eq_zero.mp this.symm

theorem processTwapBatch_some_eq (s : TwapStatus) (b : List TwapFill)
    (f : TwapFill) (rest : List TwapFill)
    (hsort : sortFillsByTime b = f :: rest) :
    processTwapBatch (some s) b =
      (if ((f :: rest).getLastD f).isTwapDone ||
          ((f :: rest).getLastD f).isTwapCancelled then
        ([if ((f :: rest).getLastD f).isTwapCancelled then
            TwapEvent.cancelled ((f :: rest).getLastD f)
              { s with totalFills := s.totalFills + b.length }
          else
            TwapEvent.completed ((f :: rest).getLastD f)
              { s with totalFills := s.totalFills + b.length }], none)
      else
        ([], some { s with totalFills := s.totalFills + b.length })) := by
  unfold processTwapBatch
  rw [hsort]
  by_cases hterm : (((f :: rest).getLastD f).isTwapDone ||
      ((f :: rest).getLastD f).isTwapCancelled) = true
  · simp only [hterm, if_true]
    rfl
  · simp only [Bool.not_eq_true] at hterm
    simp only [hterm, Bool.false_eq_true, if_false]
    rfl

theorem processTwapBatch_none_eq (b : List TwapFill)
    (f : TwapFill) (rest : List TwapFill)
    (hsort : sortFillsByTime b = f :: rest) :
    processTwapBatch none b =
      (if ((f :: rest).getLastD f).isTwapDone ||
          ((f :: rest).getLastD f).isTwapCancelled then
        ([TwapEvent.started f,
          if ((f :: rest).getLastD f).isTwapCancelled then
            TwapEvent.cancelled ((f :: rest).getLastD f)
              ⟨f.time, 0 + b.length, f.coin, f.side, f.sz⟩
          else
            TwapEvent.completed ((f :: rest).getLastD f)
              ⟨f.time, 0 + b.length, f.coin, f.side, f.sz⟩], none)
      else
        ([TwapEvent.started f],
          some ⟨f.time, 0 + b.length, f.coin, f.side, f.sz⟩)) := by
  unfold processTwapBatch
  rw [hsort]
  by_cases hterm : (((f :: rest).getLastD f).isTwapDone ||
      ((f :: rest).getLastD f).isTwapCancelled) = true
  · simp only [hterm, if_true]
    rfl
  · simp only [Bool.not_eq_true] at hterm
    simp only [hterm, Bool.false_eq_true, if_false]
    rfl

theorem batchIsTerminal_of_sort (b : List TwapFill) (f : TwapFill)
    (rest : List TwapFill) (hsort : sortFillsByTime b = f :: rest) :
    batchIsTerminal b = (((f :: rest).getLastD f).isTwapDone ||
      ((f :: rest).getLastD f).isTwapCancelled) := by
  unfold batchIsTerminal batchLastFill
  rw [hsort]

theorem batchLastFill_of_sort (b : List TwapFill) (f : TwapFill)
    (rest : List TwapFill) (hsort : sortFillsByTime b = f :: rest) :
    batchLastFill b = some ((f :: rest).getLastD f) := by
  unfold batchLastFill
  rw [hsort]

theorem processTwapBatch_some_nonterminal (s : TwapStatus) (b : List TwapFill)
    (hne : b ≠ []) (hterm : batchIsTerminal b = false) :
    processTwapBatch (some s) b =
      ([], some { s with totalFills := s.totalFills + b.length }) := by
  obtain ⟨f, rest, hsort⟩ :=
    List.exists_cons_of_ne_nil (sortFillsByTime_ne_nil b hne)
  rw [batchIsTerminal_of_sort b f rest hsort] at hterm
  rw [processTwapBatch_some_eq s b f rest hsort,
    if_neg (by rw [hterm]; simp)]

theorem processTwapBatch_some_terminal (s : TwapStatus) (b : List TwapFill)
    (hterm : batchIsTerminal b = true) :
    ∃ lf, batchLastFill b = some lf ∧
      processTwapBatch (some s) b =
        ([if lf.isTwapCancelled then
            TwapEvent.cancelled lf { s with totalFills := s.totalFills + b.length }
          else
            TwapEvent.completed lf
              { s with totalFills := s.totalFills + b.length }], none) := by
  have hne : sortFillsByTime b ≠ [] := by
    intro hnil
    unfold batchIsTerminal batchLastFill at hterm
    rw [hnil] at hterm
    simp at hterm
  obtain ⟨f, rest, hsort⟩ := List.exists_cons_of_ne_nil hne
  refine ⟨(f :: rest).getLastD f, batchLastFill_of_sort b f rest hsort, ?_⟩
  rw [batchIsTerminal_of_sort b f rest hsort] at hterm
  rw [processTwapBatch_some_eq s b f rest hsort, if_pos hterm]

theorem processTwapBatch_none_nonterminal (b : List TwapFill)
    (hne : b ≠ []) (hterm : batchIsTerminal b = false) :
    ∃ f rest, sortFillsByTime b = f :: rest ∧
      processTwapBatch none b =
        ([TwapEvent.started f],
          some ⟨f.time, 0 + b.length, f.coin, f.side, f.sz⟩) := by
  obtain ⟨f, rest, hsort⟩ :=
    List.exists_cons_of_ne_nil (sortFillsByTime_ne_nil b hne)
  refine ⟨f, rest, hsort, ?_⟩
  rw [batchIsTerminal_of_sort b f rest hsort] at hterm
  rw [processTwapBatch_none_eq b f rest hsort,
    if_neg (by rw [hterm]; simp)]

theorem processTwapBatch_none_terminal (b : List TwapFill)
    (hne : b ≠ []) (hterm : batchIsTerminal b = true) :
    ∃ f lf, batchLastFill b = some lf ∧
      processTwapBatch none b =
        ([TwapEvent.started f,
          if lf.isTwapCancelled then
            TwapEvent.cancelled lf ⟨f.time, 0 + b.length, f.coin, f.side, f.sz⟩
          else
            TwapEvent.completed lf
              ⟨f.time, 0 + b.length, f.coin, f.side, f.sz⟩], none) := by
  obtain ⟨f, rest, hsort⟩ :=
    List.exists_cons_of_ne_nil (sortFillsByTime_ne_nil b hne)
  refine ⟨f, (f :: rest).getLastD f, batchLastFill_of_sort b f rest hsort, ?_⟩
  rw [batchIsTerminal_of_sort b f rest hsort] at hterm
  rw [processTwapBatch_none_eq b f rest hsort, if_pos hterm]

theorem runTwap_nonterminal_some (bs : List (List TwapFill))
    (h : ∀ b ∈ bs, b ≠ [] ∧ batchIsTerminal b = false) (s : TwapStatus) :
    runTwap (some s) bs =
      ([], some { s with
        totalFills := s.totalFills + (bs.map List.length).sum }) := by
  induction bs generalizing s with
  | nil => simp [runTwap]
  | cons b bs ih =>
    have hb := h b (by simp)
    have hstep := processTwapBatch_some_nonterminal s b hb.1 hb.2
    have hrec := ih (fun b' hb' => h b' (by simp [hb'])) 
      { s with totalFills := s.totalFills + b.length }
    unfold runTwap
    rw [hstep]
    simp only [hrec, List.nil_append, List.map_cons, List.sum_cons]
    congr 1
    simp [Nat.add_assoc]

theorem runTwap_terminal_from_some (bs : List (List TwapFill))
    (blast : List TwapFill)
    (hmid : ∀ b ∈ bs, b ≠ [] ∧ batchIsTerminal b = false)
    (ht : batchIsTerminal blast = true) (s : TwapStatus) :
    ∃ ev, runTwap (some s) (bs ++ [blast]) = ([ev], none) ∧
      isTerminalEvent ev = true := by
  induction bs generalizing s with
  | nil =>
    obtain ⟨lf, _, hstep⟩ := processTwapBatch_some_terminal s blast ht
    refine ⟨if lf.isTwapCancelled then
        TwapEvent.cancelled lf { s with totalFills := s.totalFills + blast.length }
      else
        TwapEvent.completed lf
          { s with totalFills := s.totalFills + blast.length }, ?_, ?_⟩
    · show runTwap (some s) [blast] = _
      unfold runTwap
      rw [hstep]
      rfl
    · by_cases hc : lf.isTwapCancelled = true <;> simp [hc, isTerminalEvent]
  | cons b bs ih =>
    have hb := hmid b (by simp)
    have hstep := processTwapBatch_some_nonterminal s b hb.1 hb.2
    obtain ⟨ev, hrec, hev⟩ := ih (fun b' hb' => hmid b' (by simp [hb']))
      { s with totalFills := s.totalFills + b.length }
    refine ⟨ev, ?_, hev⟩
    show runTwap (some s) (b :: (bs ++ [blast])) = ([ev], none)
    unfold runTwap
    rw [hstep]
    simp [hrec]

theorem terminalEvent_not_started (ev : TwapEvent)
    (h : isTerminalEvent ev = true) : isStartedEvent ev = false := by
  cases ev <;> simp_all [isTerminalEvent, isStartedEvent]

theorem event_not_both_terminals (ev : TwapEvent) :
    ¬(isCompletedEvent ev = true ∧ isCancelledEvent ev = true) := by
  cases ev <;> simp [isCompletedEvent, isCancelledEvent]

/-! ## C2 — sliced-order lifecycle uniqueness -/

/-- C2: for a sliced-order id first observed by the monitoring loop (state
`none`) and fed any run of nonempty non-terminal batches followed by the
terminal batch that ends its lifetime, at most one "started" notification
is emitted across the whole run, exactly one terminal notification is
emitted — a completion or a cancellation, never both — and after it the
`(wallet, twapId)` entry is removed from the live map (final state
`none`). -/
theorem twapLifecycle_unique (bs : List (List TwapFill))
    (blast : List TwapFill)
    (hmid : ∀ b ∈ bs, b ≠ [] ∧ batchIsTerminal b = false)
    (hl : blast ≠ []) (ht : batchIsTerminal blast = true) :
    ((runTwap none (bs ++ [blast])).1.countP isStartedEvent ≤ 1) ∧
    ((runTwap none (bs ++ [blast])).1.countP isTerminalEvent = 1) ∧
    ¬((runTwap none (bs ++ [blast])).1.any isCompletedEvent = true ∧
      (runTwap none (bs ++ [blast])).1.any isCancelledEvent = true) ∧
    (runTwap none (bs ++ [blast])).2 = none := by
  have main : ∃ f ev, runTwap none (bs ++ [blast]) =
      ([TwapEvent.started f, ev], none) ∧ isTerminalEvent ev = true := by
    cases bs with
    | nil =>
      obtain ⟨f, lf, _, hstep⟩ := processTwapBatch_none_terminal blast hl ht
      refine ⟨f, if lf.isTwapCancelled then
          TwapEvent.cancelled lf ⟨f.time, 0 + blast.length, f.coin, f.side, f.sz⟩
        else
          TwapEvent.completed lf
            ⟨f.time, 0 + blast.length, f.coin, f.side, f.sz⟩, ?_, ?_⟩
      · show runTwap none ([] ++ [blast]) = _
        rw [List.nil_append]
        unfold runTwap
        rw [hstep]
        rfl
      · by_cases hc : lf.isTwapCancelled = true <;> simp [hc, isTerminalEvent]
    | cons b bs' =>
      have hb := hmid b (by simp)
      obtain ⟨f, rest, hsort, hstep⟩ :=
        processTwapBatch_none_nonterminal b hb.1 hb.2
      obtain ⟨ev, hrec, hev⟩ := runTwap_terminal_from_some bs' blast
        (fun b' hb' => hmid b' (by simp [hb'])) ht
        ⟨f.time, 0 + b.length, f.coin, f.side, f.sz⟩
      refine ⟨f, ev, ?_, hev⟩
      show runTwap none (b :: (bs' ++ [blast])) = _
      unfold runTwap
      rw [hstep]
      simp only [Nat.zero_add] at hrec
      simp [hrec]
  obtain ⟨f, ev, hrun, hev⟩ := main
  rw [hrun]
  refine ⟨?_, ?_, ?_, rfl⟩
  · have h1 : isStartedEvent (TwapEvent.started f) = true := rfl
    have h2 : isStartedEvent ev = false := terminalEvent_not_started ev hev
    simp [List.countP_cons, h1, h2]
  · have h3 : isTerminalEvent (TwapEvent.started f) = false := rfl
    simp [List.countP_cons, h3, hev]
  · rintro ⟨hcomp, hcanc⟩
    simp only [List.any_cons, List.any_nil, Bool.or_false,
      isCompletedEvent, Bool.false_or] at hcomp
    simp only [List.any_cons, List.any_nil, Bool.or_false,
      isCancelledEvent, Bool.false_or] at hcanc
    exact event_not_both_terminals ev ⟨hcomp, hcanc⟩

/-- C2 witness: one accumulation batch at t=100 followed by a
terminal-done batch at t=300 — one start, one completion, entry removed. -/
theorem twapLifecycle_unique_witness :
    (∀ b ∈ [[(⟨100, "10", "ETH", "buy", false, false, none, none⟩ :
        TwapFill)]], b ≠ [] ∧ batchIsTerminal b = false) ∧
    ([(⟨300, "10", "ETH", "buy", true, false, none, some "5"⟩ :
        TwapFill)] ≠ []) ∧
    batchIsTerminal
      [(⟨300, "10", "ETH", "buy", true, false, none, some "5"⟩ :
        TwapFill)] = true ∧
    (((runTwap none ([[(⟨100, "10", "ETH", "buy", false, false, none, none⟩ :
          TwapFill)]] ++
        [[(⟨300, "10", "ETH", "buy", true, false, none, some "5"⟩ :
          TwapFill)]])).1.countP isStartedEvent ≤ 1) ∧
      ((runTwap none ([[(⟨100, "10", "ETH", "buy", false, false, none, none⟩ :
          TwapFill)]] ++
        [[(⟨300, "10", "ETH", "buy", true, false, none, some "5"⟩ :
          TwapFill)]])).1.countP isTerminalEvent = 1) ∧
      ¬((runTwap none ([[(⟨100, "10", "ETH", "buy", false, false, none,
            none⟩ : TwapFill)]] ++
          [[(⟨300, "10", "ETH", "buy", true, false, none, some "5"⟩ :
            TwapFill)]])).1.any isCompletedEvent = true ∧
        (runTwap none ([[(⟨100, "10", "ETH", "buy", false, false, none,
            none⟩ : TwapFill)]] ++
          [[(⟨300, "10", "ETH", "buy", true, false, none, some "5"⟩ :
            TwapFill)]])).1.any isCancelledEvent = true) ∧
      (runTwap none ([[(⟨100, "10", "ETH", "buy", false, false, none, none⟩ :
          TwapFill)]] ++
        [[(⟨300, "10", "ETH", "buy", true, false, none, some "5"⟩ :
          TwapFill)]])).2 = none) :=
  ⟨by decide, by decide, by decide,
   twapLifecycle_unique
     [[⟨100, "10", "ETH", "buy", false, false, none, none⟩]]
     [⟨300, "10", "ETH", "buy", true, false, none, some "5"⟩]
     (by decide) (by decide) (by decide)⟩

/-! ## C7 — aggregator fill count -/

/-- C7: for a tracked sliced order fed N nonempty accumulation batches
(the i-th delivering k_i slices for the order's id), the aggregator's
`totalFills` counter after the run equals the sum of the k_i. -/
theorem twapFillCount_sum (batches : List (List TwapFill))
    (h : ∀ b ∈ batches, b ≠ [] ∧ batchIsTerminal b = false)
    (h0 : batches ≠ []) :
    ∃ s, (runTwap none batches).2 = some s ∧
      s.totalFills = (batches.map List.length).sum := by
  obtain ⟨b, bs, rfl⟩ := List.exists_cons_of_ne_nil h0
  have hb := h b (by simp)
  obtain ⟨f, rest, hsort, hstep⟩ :=
    processTwapBatch_none_nonterminal b hb.1 hb.2
  have hrec := runTwap_nonterminal_some bs
    (fun b' hb' => h b' (by simp [hb']))
    ⟨f.time, 0 + b.length, f.coin, f.side, f.sz⟩
  refine ⟨⟨f.time, 0 + b.length + (bs.map List.length).sum, f.coin, f.side,
    f.sz⟩, ?_, ?_⟩
  · show (runTwap none (b :: bs)).2 = _
    unfold runTwap
    rw [hstep]
    simp at hrec
    simp [hrec]
  · simp

/-- C7 witness: three accumulation batches of sizes 2, 1, 3 leave the
counter at 6. -/
theorem twapFillCount_sum_witness :
    (∀ b ∈ [[(⟨100, "1", "ETH", "buy", false, false, none, none⟩ : TwapFill),
             ⟨110, "1", "ETH", "buy", false, false, none, none⟩],
            [(⟨200, "1", "ETH", "buy", false, false, none, none⟩ : TwapFill)],
            [(⟨300, "1", "ETH", "buy", false, false, none, none⟩ : TwapFill),
             ⟨310, "1", "ETH", "buy", false, false, none, none⟩,
             ⟨320, "1", "ETH", "buy", false, false, none, none⟩]],
        b ≠ [] ∧ batchIsTerminal b = false) ∧
    (∃ s, (runTwap none
        [[(⟨100, "1", "ETH", "buy", false, false, none, none⟩ : TwapFill),
          ⟨110, "1", "ETH", "buy", false, false, none, none⟩],
         [(⟨200, "1", "ETH", "buy", false, false, none, none⟩ : TwapFill)],
         [(⟨300, "1", "ETH", "buy", false, false, none, none⟩ : TwapFill),
          ⟨310, "1", "ETH", "buy", false, false, none, none⟩,
          ⟨320, "1", "ETH", "buy", false, false, none, none⟩]]).2 = some s ∧
      s.totalFills =
        ([[(⟨100, "1", "ETH", "buy", false, false, none, none⟩ : TwapFill),
           ⟨110, "1", "ETH", "buy", false, false, none, none⟩],
          [(⟨200, "1", "ETH", "buy", false, false, none, none⟩ : TwapFill)],
          [(⟨300, "1", "ETH", "buy", false, false, none, none⟩ : TwapFill),
           ⟨310, "1", "ETH", "buy", false, false, none, none⟩,
           ⟨320, "1", "ETH", "buy", false, false, none, none⟩]].map
            List.length).sum) :=
  ⟨by decide,
   twapFillCount_sum
     [[⟨100, "1", "ETH", "buy", false, false, none, none⟩,
       ⟨110, "1", "ETH", "buy", false, false, none, none⟩],
      [⟨200, "1", "ETH", "buy", false, false, none, none⟩],
      [⟨300, "1", "ETH", "buy", false, false, none, none⟩,
       ⟨310, "1", "ETH", "buy", false, false, none, none⟩,
       ⟨320, "1", "ETH", "buy", false, false, none, none⟩]]
     (by decide) (by decide)⟩

/-! ## C6 — batch sorting and terminal-flag handling -/

/-- C6: within one polling batch for a tracked sliced order, the slices are
sorted ascending by time (a stable, order-preserving permutation) before
state transitions are applied; a terminal event is emitted exactly when the
chronologically-last member of the sorted batch carries a done or cancelled
flag (a flag on any earlier slice is ignored); and any terminal event
reports a fill count to which every slice of the batch has already
contributed (`totalFills` increased by the whole batch length) and carries
the chronologically-last slice. -/
theorem twapBatch_sorted_terminalOnlyLast (s : TwapStatus)
    (fills : List TwapFill) (hne : fills ≠ []) :
    List.Sorted (fun a b : TwapFill => a.time ≤ b.time)
        (sortFillsByTime fills) ∧
    (sortFillsByTime fills).Perm fills ∧
    ((processTwapBatch (some s) fills).1.any isTerminalEvent =
      batchIsTerminal fills) ∧
    (∀ g st, (TwapEvent.completed g st ∈ (processTwapBatch (some s) fills).1 ∨
        TwapEvent.cancelled g st ∈ (processTwapBatch (some s) fills).1) →
      st.totalFills = s.totalFills + fills.length ∧
        batchLastFill fills = some g) := by
  refine ⟨List.sorted_insertionSort _ fills,
    List.perm_insertionSort _ fills, ?_, ?_⟩
  · by_cases ht : batchIsTerminal fills = true
    · obtain ⟨lf, hlast, hstep⟩ := processTwapBatch_some_terminal s fills ht
      rw [hstep, ht]
      by_cases hc : lf.isTwapCancelled = true <;>
        simp [hc, isTerminalEvent]
    · have ht' : batchIsTerminal fills = false := by simpa using ht
      rw [processTwapBatch_some_nonterminal s fills hne ht', ht']
      simp
  · intro g st hmem
    by_cases ht : batchIsTerminal fills = true
    · obtain ⟨lf, hlast, hstep⟩ := processTwapBatch_some_terminal s fills ht
      rw [hstep] at hmem
      by_cases hc : lf.isTwapCancelled = true
      · simp only [hc, if_true] at hmem
        rcases hmem with hmem | hmem
        · simp at hmem
        · simp only [List.mem_singleton, TwapEvent.cancelled.injEq] at hmem
          obtain ⟨hg, hst⟩ := hmem
          subst hg
          subst hst
          exact ⟨rfl, hlast⟩
      · simp only [Bool.not_eq_true] at hc
        simp only [hc, Bool.false_eq_true, if_false] at hmem
        rcases hmem with hmem | hmem
        · simp only [List.mem_singleton, TwapEvent.completed.injEq] at hmem
          obtain ⟨hg, hst⟩ := hmem
          subst hg
          subst hst
          exact ⟨rfl, hlast⟩
        · simp at hmem
    · have ht' : batchIsTerminal fills = false := by simpa using ht
      rw [processTwapBatch_some_nonterminal s fills hne ht'] at hmem
      rcases hmem with hmem | hmem <;> simp at hmem

/-- C6 witness: a batch delivered out of order in which the earlier slice
(t=100) carries the done flag while the chronologically-last slice (t=300)
does not — the flag is not honored, and the sorted batch is the ascending
permutation of the input. -/
theorem twapBatch_sorted_terminalOnlyLast_witness :
    ([(⟨300, "10", "ETH", "buy", false, false, none, none⟩ : TwapFill),
      ⟨100, "10", "ETH", "buy", true, false, none, none⟩] ≠ []) ∧
    (List.Sorted (fun a b : TwapFill => a.time ≤ b.time)
        (sortFillsByTime
          [⟨300, "10", "ETH", "buy", false, false, none, none⟩,
           ⟨100, "10", "ETH", "buy", true, false, none, none⟩]) ∧
      (sortFillsByTime
          [⟨300, "10", "ETH", "buy", false, false, none, none⟩,
           ⟨100, "10", "ETH", "buy", true, false, none, none⟩]).Perm
        [⟨300, "10", "ETH", "buy", false, false, none, none⟩,
         ⟨100, "10", "ETH", "buy", true, false, none, none⟩] ∧
      ((processTwapBatch (some ⟨50, 2, "ETH", "buy", "10"⟩)
          [⟨300, "10", "ETH", "buy", false, false, none, none⟩,
           ⟨100, "10", "ETH", "buy", true, false, none, none⟩]).1.any
        isTerminalEvent =
        batchIsTerminal
          [⟨300, "10", "ETH", "buy", false, false, none, none⟩,
           ⟨100, "10", "ETH", "buy", true, false, none, none⟩]) ∧
      (∀ g st, (TwapEvent.completed g st ∈
          (processTwapBatch (some ⟨50, 2, "ETH", "buy", "10"⟩)
            [⟨300, "10", "ETH", "buy", false, false, none, none⟩,
             ⟨100, "10", "ETH", "buy", true, false, none, none⟩]).1 ∨
          TwapEvent.cancelled g st ∈
          (processTwapBatch (some ⟨50, 2, "ETH", "buy", "10"⟩)
            [⟨300, "10", "ETH", "buy", false, false, none, none⟩,
             ⟨100, "10", "ETH", "buy", true, false, none, none⟩]).1) →
        st.totalFills = (⟨50, 2, "ETH", "buy", "10"⟩ : TwapStatus).totalFills +
            ([(⟨300, "10", "ETH", "buy", false, false, none, none⟩ :
              TwapFill),
              ⟨100, "10", "ETH", "buy", true, false, none, none⟩] :
              List TwapFill).length ∧
          batchLastFill
            [⟨300, "10", "ETH", "buy", false, false, none, none⟩,
             ⟨100, "10", "ETH", "buy", true, false, none, none⟩] = some g)) :=
  ⟨by decide,
   twapBatch_sorted_terminalOnlyLast ⟨50, 2, "ETH", "buy", "10"⟩
     [⟨300, "10", "ETH", "buy", false, false, none, none⟩,
      ⟨100, "10", "ETH", "buy", true, false, none, none⟩] (by decide)⟩
